import Mathlib

/-!
Shallow embedding of the cache-and-resolve subsystem of the weather-bingo API
(`src/api/src/services/yr.rs`, `forecast.rs`, `poller.rs`, `src/api/src/db/queries.rs`).

Conventions of the embedding:
* timestamps (`DateTime<Utc>`) are `Int` seconds since the epoch;
* `f64` and `Decimal` weather values are `ℚ` (exact arithmetic stands in for
  IEEE floating point; every property below is about the algebraic structure of
  the code, not about rounding error);
* the RFC3339 parsing boundary is represented by `Option Int` fields: `some t`
  is a string that `DateTime::parse_from_rfc3339` accepts with value `t`,
  `none` is an unparseable string;
* `V^0.16` (`f64::powf`) is transcendental, so `calculate_feels_like` and all
  of its callers are parameterised by an arbitrary function `powf : ℚ → ℚ → ℚ`;
  the theorems hold for every interpretation of `powf`, hence for the real one;
* fallible Rust functions return `Except String`; async functions become pure
  functions with the database / upstream fetch passed and returned explicitly.
-/

namespace WeatherBingo

/-- Rust's `Iterator::min_by_key` realised as a left fold with a strict
"is better" comparator: the accumulator is replaced only on a strict
improvement, so the FIRST minimal element wins — exactly `min_by_key`'s
documented tie-breaking. -/
def minByFirstWith (lt : α → α → Bool) (l : List α) : Option α :=
  l.foldl
    (fun acc x =>
      match acc with
      | none => some x
      | some m => if lt x m then some x else some m)
    none

/-- `min_by_key` on a `Nat`-valued key. -/
def minByFirst (f : α → Nat) (l : List α) : Option α :=
  minByFirstWith (fun a b => f a < f b) l

/-- The Rust `for`-loop that maps a fallible body over a list, stopping at the
first error (the `?` operator inside the loop). -/
def mapExceptList (f : α → Except String β) : List α → Except String (List β)
  | [] => .ok []
  | t :: ts =>
    match f t with
    | .error e => .error e
    | .ok r =>
      match mapExceptList f ts with
      | .error e => .error e
      | .ok rs => .ok (r :: rs)

instance {ε α : Type _} [DecidableEq ε] [DecidableEq α] : DecidableEq (Except ε α) := fun a b =>
  match a, b with
  | .error e, .error f =>
    if h : e = f then .isTrue (by rw [h]) else .isFalse (by intro hc; cases hc; exact h rfl)
  | .error _, .ok _ => .isFalse (by intro hc; cases hc)
  | .ok _, .error _ => .isFalse (by intro hc; cases hc)
  | .ok a, .ok b =>
    if h : a = b then .isTrue (by rw [h]) else .isFalse (by intro hc; cases hc; exact h rfl)

/-- `helpers.rs::f64_to_decimal_1dp`: round a weather value to one decimal
place (the `format!("{:.1}", v)` / `Decimal::from_str_exact` round trip; the
non-finite branch has no counterpart over `ℚ`). The exact tie-breaking of the
float formatter is immaterial to every claim below. -/
def f64_to_decimal_1dp (v : ℚ) : ℚ := (round (10 * v) : ℚ) / 10

/-- `helpers.rs::opt_f64_to_decimal_1dp`. -/
def opt_f64_to_decimal_1dp (v : Option ℚ) : Option ℚ := v.map f64_to_decimal_1dp

-- ---------------------------------------------------------------------------
-- yr.rs : typed view of a yr.no Locationforecast payload (post-serde)
-- ---------------------------------------------------------------------------

/-- Temporal resolution of a yr.no timeseries entry (`yr.rs::ForecastResolution`). -/
inductive ForecastResolution
  | Hourly
  | SixHourly
deriving DecidableEq, Repr

/-- `ForecastResolution::max_tolerance_secs`. -/
def ForecastResolution.max_tolerance_secs : ForecastResolution → Int
  | .Hourly => 3600
  | .SixHourly => 10800

/-- `yr.rs::YrPeriodDetails`. -/
structure YrPeriodDetails where
  precipitation_amount : Option ℚ
  precipitation_amount_min : Option ℚ
  precipitation_amount_max : Option ℚ
deriving DecidableEq, Repr

/-- `yr.rs::YrSummary`. -/
structure YrSummary where
  symbol_code : Option String
deriving DecidableEq, Repr

/-- `yr.rs::YrPeriod`. -/
structure YrPeriod where
  summary : Option YrSummary
  details : Option YrPeriodDetails
deriving DecidableEq, Repr

/-- `yr.rs::YrInstantDetails`. -/
structure YrInstantDetails where
  air_temperature : Option ℚ
  air_temperature_percentile_10 : Option ℚ
  air_temperature_percentile_90 : Option ℚ
  wind_speed : Option ℚ
  wind_speed_percentile_10 : Option ℚ
  wind_speed_percentile_90 : Option ℚ
  wind_from_direction : Option ℚ
  wind_speed_of_gust : Option ℚ
  relative_humidity : Option ℚ
  dew_point_temperature : Option ℚ
  cloud_area_fraction : Option ℚ
  ultraviolet_index_clear_sky : Option ℚ
deriving DecidableEq, Repr

/-- `yr.rs::YrData` (the `instant.details` nesting is collapsed one level). -/
structure YrData where
  instant : YrInstantDetails
  next_1_hours : Option YrPeriod
  next_6_hours : Option YrPeriod
deriving DecidableEq, Repr

/-- `yr.rs::YrTimeseries`; `time` is the outcome of parsing the entry's
RFC3339 `time` string (`none` = unparseable). -/
structure YrTimeseries where
  time : Option Int
  data : YrData
deriving DecidableEq, Repr

/-- `yr.rs::YrProperties`; `updatedAt` is the collapsed outcome of
`meta.as_ref().and_then(updated_at).and_then(parse_from_rfc3339 ok)` —
`none` when the meta block is missing, has no `updated_at`, or it is
unparseable. -/
structure YrProperties where
  updatedAt : Option Int
  timeseries : List YrTimeseries
deriving DecidableEq, Repr

/-- `yr.rs::YrResponse`. -/
structure YrResponse where
  properties : YrProperties
deriving DecidableEq, Repr

/-- `yr.rs::YrParsedForecast`. -/
structure YrParsedForecast where
  forecast_time : Int
  temperature_c : ℚ
  temperature_percentile_10_c : Option ℚ
  temperature_percentile_90_c : Option ℚ
  wind_speed_ms : ℚ
  wind_speed_percentile_10_ms : Option ℚ
  wind_speed_percentile_90_ms : Option ℚ
  wind_direction_deg : ℚ
  wind_gust_ms : Option ℚ
  precipitation_mm : ℚ
  precipitation_min_mm : Option ℚ
  precipitation_max_mm : Option ℚ
  humidity_pct : ℚ
  dew_point_c : ℚ
  cloud_cover_pct : ℚ
  uv_index : Option ℚ
  symbol_code : String
  yr_model_run_at : Option Int
  resolution : ForecastResolution
deriving DecidableEq, Repr

/-- `yr.rs::ExtractionResult`. -/
structure ExtractionResult where
  forecasts : List (Option YrParsedForecast)
  forecast_horizon : Int
deriving DecidableEq, Repr

/-- `yr.rs::parse_timeseries_entry`. The `Err` branch is the entry-time parse
failure; every numeric conversion goes through the 1-decimal-place rounding of
`f64_to_decimal` = `f64_to_decimal_1dp`. -/
def parse_timeseries_entry (entry : YrTimeseries) : Except String YrParsedForecast :=
  match entry.time with
  | none => .error "yr.no timeseries entry has invalid time"
  | some entry_time =>
    let instant := entry.data.instant
    let resolution :=
      if entry.data.next_1_hours.isSome then ForecastResolution.Hourly
      else ForecastResolution.SixHourly
    let period := entry.data.next_1_hours.or entry.data.next_6_hours
    let symbol_code := ((period.bind (·.summary)).bind (·.symbol_code)).getD "unknown"
    let precip := period.bind (·.details)
    .ok {
      forecast_time := entry_time
      temperature_c := f64_to_decimal_1dp (instant.air_temperature.getD 0)
      temperature_percentile_10_c := opt_f64_to_decimal_1dp instant.air_temperature_percentile_10
      temperature_percentile_90_c := opt_f64_to_decimal_1dp instant.air_temperature_percentile_90
      wind_speed_ms := f64_to_decimal_1dp (instant.wind_speed.getD 0)
      wind_speed_percentile_10_ms := opt_f64_to_decimal_1dp instant.wind_speed_percentile_10
      wind_speed_percentile_90_ms := opt_f64_to_decimal_1dp instant.wind_speed_percentile_90
      wind_direction_deg := f64_to_decimal_1dp (instant.wind_from_direction.getD 0)
      wind_gust_ms := opt_f64_to_decimal_1dp instant.wind_speed_of_gust
      precipitation_mm := f64_to_decimal_1dp ((precip.bind (·.precipitation_amount)).getD 0)
      precipitation_min_mm := opt_f64_to_decimal_1dp (precip.bind (·.precipitation_amount_min))
      precipitation_max_mm := opt_f64_to_decimal_1dp (precip.bind (·.precipitation_amount_max))
      humidity_pct := f64_to_decimal_1dp (instant.relative_humidity.getD 0)
      dew_point_c := f64_to_decimal_1dp (instant.dew_point_temperature.getD 0)
      cloud_cover_pct := f64_to_decimal_1dp (instant.cloud_area_fraction.getD 0)
      uv_index := opt_f64_to_decimal_1dp instant.ultraviolet_index_clear_sky
      symbol_code := symbol_code
      yr_model_run_at := none
      resolution := resolution
    }

/-- The pre-parsed `(timestamp, entry)` list of
`yr.rs::extract_forecasts_at_times` (entries with unparseable timestamps are
skipped by the `filter_map`). -/
def parsedEntries (resp : YrResponse) : List (Int × YrTimeseries) :=
  resp.properties.timeseries.filterMap fun ts => ts.time.map fun t => (t, ts)

/-- The list of parseable timestamps of a payload, in payload order. -/
def validTimes (resp : YrResponse) : List Int :=
  (parsedEntries resp).map Prod.fst

/-- The body of the per-requested-time loop of
`yr.rs::extract_forecasts_at_times`. -/
def extractAtTime (yr_model_run_at : Option Int)
    (parsed_entries : List (Int × YrTimeseries)) (ft : Int) :
    Except String (Option YrParsedForecast) :=
  match minByFirst (fun p => (p.1 - ft).natAbs) parsed_entries with
  | none => .error "yr.no returned empty timeseries"
  | some closest =>
    match parse_timeseries_entry closest.2 with
    | .error e => .error e
    | .ok parsed0 =>
      let parsed := { parsed0 with yr_model_run_at := yr_model_run_at }
      let distance_secs : Int := ((parsed.forecast_time - ft).natAbs : Int)
      let tolerance := parsed.resolution.max_tolerance_secs
      if distance_secs > tolerance then .ok none else .ok (some parsed)

/-- `yr.rs::extract_forecasts_at_times`. `DateTime::from_timestamp` on the
horizon cannot fail in the unbounded `Int` model, so its out-of-range guard
has no counterpart. -/
def extract_forecasts_at_times (resp : YrResponse) (forecast_times : List Int) :
    Except String ExtractionResult :=
  let yr_model_run_at := resp.properties.updatedAt
  if resp.properties.timeseries.isEmpty then
    .error "yr.no returned empty timeseries"
  else
    let parsed_entries := parsedEntries resp
    match parsed_entries.getLast? with
    | none => .error "yr.no timeseries has no entries with valid timestamps"
    | some lastEntry =>
      let forecast_horizon := lastEntry.1
      match mapExceptList (extractAtTime yr_model_run_at parsed_entries) forecast_times with
      | .error e => .error e
      | .ok results => .ok { forecasts := results, forecast_horizon := forecast_horizon }

-- ---------------------------------------------------------------------------
-- forecast.rs : derived metrics
-- ---------------------------------------------------------------------------

/-- `forecast.rs::calculate_feels_like`, parameterised by the transcendental
`f64::powf` (see the header comment): `v016 = powf wind_speed_kmh 0.16`. -/
def calculate_feels_like (powf : ℚ → ℚ → ℚ) (temperature_c wind_speed_ms : ℚ) : ℚ :=
  let wind_speed_kmh := wind_speed_ms * (36 / 10)
  if temperature_c > 10 ∨ wind_speed_kmh < 48 / 10 then temperature_c
  else
    let v016 := powf wind_speed_kmh (16 / 100)
    1312 / 100 + (6215 / 10000) * temperature_c - (1137 / 100) * v016
      + (3965 / 10000) * temperature_c * v016

/-- `forecast.rs::calculate_snow_temperature`. -/
def calculate_snow_temperature (temperature_c dew_point_c cloud_cover_pct wind_speed_ms : ℚ) :
    ℚ :=
  let t_base := min temperature_c dew_point_c
  let cloud_factor := 1 - min (max (cloud_cover_pct / 100) 0) 1
  let wind_damping := 1 / (1 + wind_speed_ms / 5)
  let radiative_offset := cloud_factor * 3 * wind_damping
  min (t_base - radiative_offset) 0

/-- `sub` occurs as a leading segment of `hay`. -/
def leadMatch : List Char → List Char → Bool
  | [], _ => true
  | _ :: _, [] => false
  | s :: ss, h :: hs => s = h && leadMatch ss hs

/-- Substring containment on character lists (Rust's `str::contains`). -/
def containsSub (sub : List Char) : List Char → Bool
  | [] => sub.isEmpty
  | h :: hs => leadMatch sub (h :: hs) || containsSub sub hs

/-- Rust's `str::contains(pattern)`. -/
def strContains (hay sub : String) : Bool := containsSub sub.toList hay.toList

/-- Rust's `str::to_lowercase` (ASCII-adequate for yr.no symbol codes). -/
def toLowerStr (s : String) : String := String.mk (s.toList.map Char.toLower)

/-- `forecast.rs::infer_precipitation_type`. -/
def infer_precipitation_type (symbol_code : String)
    (temperature_c precipitation_mm : ℚ) : String :=
  if precipitation_mm ≤ 0 then "none"
  else
    let code_lower := toLowerStr symbol_code
    if strContains code_lower "snow" then "snow"
    else if strContains code_lower "sleet" then "sleet"
    else if strContains code_lower "rain" || strContains code_lower "drizzle" then "rain"
    else if temperature_c < 0 then "snow"
    else if temperature_c ≤ 2 then "sleet"
    else "rain"

-- ---------------------------------------------------------------------------
-- forecast.rs : elevation-adjusted pacing
-- ---------------------------------------------------------------------------

/-- Uphill cost multiplier per unit gradient (`forecast.rs::K_UP`). -/
def K_UP : ℚ := 12

/-- Downhill cost multiplier per unit gradient (`forecast.rs::K_DOWN`). -/
def K_DOWN : ℚ := 4

/-- Minimum cost factor per km (`forecast.rs::MIN_COST_FACTOR`). -/
def MIN_COST_FACTOR : ℚ := 1 / 2

/-- `forecast.rs::PacingCheckpoint`. -/
structure PacingCheckpoint where
  distance_km : ℚ
  elevation_m : ℚ
deriving DecidableEq, Repr

instance : Inhabited PacingCheckpoint := ⟨⟨0, 0⟩⟩

/-- Cost of the segment between two consecutive checkpoints — the body of the
`for i in 0..(n-1)` loop of `calculate_pass_time_fractions`. -/
def segmentCost (a b : PacingCheckpoint) : ℚ :=
  let dist_delta := b.distance_km - a.distance_km
  if dist_delta ≤ 0 then 0
  else
    let ele_delta := b.elevation_m - a.elevation_m
    let gradient := ele_delta / (dist_delta * 1000)
    let cost_factor :=
      if gradient ≥ 0 then max (1 + K_UP * gradient) MIN_COST_FACTOR
      else max (1 - K_DOWN * |gradient|) MIN_COST_FACTOR
    cost_factor * dist_delta

/-- The `segment_costs` vector: the indexed loop over `i` and `i+1` is the
`zipWith` of the list with its own tail. -/
def segmentCosts (checkpoints : List PacingCheckpoint) : List ℚ :=
  List.zipWith segmentCost checkpoints checkpoints.tail

/-- The cumulative-fraction loop: `cumulative += cost;
fractions.push(cumulative / total_cost)`. -/
def cumFractions (total_cost : ℚ) : ℚ → List ℚ → List ℚ
  | _, [] => []
  | cumulative, cost :: rest =>
    let c := cumulative + cost
    c / total_cost :: cumFractions total_cost c rest

/-- `if let Some(last) = fractions.last_mut() { *last = 1.0 }`. -/
def setLastOne : List ℚ → List ℚ
  | [] => []
  | [_] => [1]
  | x :: y :: rest => x :: setLastOne (y :: rest)

/-- `forecast.rs::calculate_pass_time_fractions`. -/
def calculate_pass_time_fractions (checkpoints : List PacingCheckpoint) : List ℚ :=
  let n := checkpoints.length
  if n = 0 then []
  else if n = 1 then [0]
  else
    let segment_costs := segmentCosts checkpoints
    let total_cost := segment_costs.sum
    if total_cost ≤ 0 then
      let total_dist := (checkpoints.getLastD default).distance_km
      if total_dist ≤ 0 then
        (List.range n).map fun i => (i : ℚ) / ((n : ℚ) - 1)
      else
        checkpoints.map fun cp => cp.distance_km / total_dist
    else
      setLastOne (0 :: cumFractions total_cost 0 segment_costs)

-- ---------------------------------------------------------------------------
-- poller.rs : extraction time bands
-- ---------------------------------------------------------------------------

/-- Slowest realistic pace (`poller.rs::POLLER_MIN_SPEED_KMH`). -/
def POLLER_MIN_SPEED_KMH : ℚ := 10

/-- Fastest realistic pace (`poller.rs::POLLER_MAX_SPEED_KMH`). -/
def POLLER_MAX_SPEED_KMH : ℚ := 30

/-- `poller.rs::floor_to_hour`: floor to the enclosing hour boundary
(`date_naive().and_hms(hour, 0, 0)` drops minutes/seconds). -/
def floor_to_hour (t : Int) : Int := t - t % 3600

/-- `poller.rs::ceil_to_hour`. -/
def ceil_to_hour (t : Int) : Int :=
  if t % 3600 = 0 then t else floor_to_hour t + 3600

/-- Rust's `as i64` cast of a nonnegative `f64`: truncation toward zero
(all uses below are on nonnegative values, where truncation = floor). -/
def ratTrunc (q : ℚ) : Int := if 0 ≤ q then ⌊q⌋ else ⌈q⌉

/-- The `while current <= last_slot` loop of `compute_extraction_times`. -/
def hourlySlots (first last : Int) : List Int :=
  if first ≤ last then first :: hourlySlots (first + 3600) last else []
termination_by (last + 3600 - first).toNat
decreasing_by omega

/-- `poller.rs::compute_extraction_times`. -/
def compute_extraction_times (race_start : Int) (distance_km : ℚ) : List Int :=
  if distance_km ≤ 0 then [floor_to_hour race_start]
  else
    let earliest_hours := distance_km / POLLER_MAX_SPEED_KMH
    let latest_hours := distance_km / POLLER_MIN_SPEED_KMH
    let earliest_arrival := race_start + ratTrunc (earliest_hours * 3600)
    let latest_arrival := race_start + ratTrunc (latest_hours * 3600)
    hourlySlots (floor_to_hour earliest_arrival) (ceil_to_hour latest_arrival)

-- ---------------------------------------------------------------------------
-- db/models.rs + db/queries.rs : the storage collaborator
-- ---------------------------------------------------------------------------

/-- `db/models.rs::Forecast` (Uuids are `Nat`; the row `id` plays no role in
any claim and is omitted — rows are compared by content). -/
structure Forecast where
  checkpoint_id : Nat
  forecast_time : Int
  fetched_at : Int
  source : String
  temperature_c : ℚ
  temperature_percentile_10_c : Option ℚ
  temperature_percentile_90_c : Option ℚ
  wind_speed_ms : ℚ
  wind_speed_percentile_10_ms : Option ℚ
  wind_speed_percentile_90_ms : Option ℚ
  wind_direction_deg : ℚ
  wind_gust_ms : Option ℚ
  precipitation_mm : ℚ
  precipitation_min_mm : Option ℚ
  precipitation_max_mm : Option ℚ
  humidity_pct : ℚ
  dew_point_c : ℚ
  cloud_cover_pct : ℚ
  uv_index : Option ℚ
  symbol_code : String
  feels_like_c : ℚ
  precipitation_type : String
  snow_temperature_c : Option ℚ
  yr_model_run_at : Option Int
  created_at : Int
deriving DecidableEq, Repr

/-- `db/queries.rs::InsertForecastParams`. -/
structure InsertForecastParams where
  checkpoint_id : Nat
  forecast_time : Int
  fetched_at : Int
  source : String
  temperature_c : ℚ
  temperature_percentile_10_c : Option ℚ
  temperature_percentile_90_c : Option ℚ
  wind_speed_ms : ℚ
  wind_speed_percentile_10_ms : Option ℚ
  wind_speed_percentile_90_ms : Option ℚ
  wind_direction_deg : ℚ
  wind_gust_ms : Option ℚ
  precipitation_mm : ℚ
  precipitation_min_mm : Option ℚ
  precipitation_max_mm : Option ℚ
  humidity_pct : ℚ
  dew_point_c : ℚ
  cloud_cover_pct : ℚ
  uv_index : Option ℚ
  symbol_code : String
  feels_like_c : ℚ
  precipitation_type : String
  snow_temperature_c : ℚ
  yr_model_run_at : Option Int
deriving DecidableEq, Repr

/-- `db/queries.rs::FORECAST_TIME_TOLERANCE_HOURS`. -/
def FORECAST_TIME_TOLERANCE_HOURS : Int := 3

/-- The `WHERE checkpoint_id = $1 AND forecast_time BETWEEN $2 - 3h AND $2 + 3h`
filter of `get_latest_forecast` (BETWEEN is inclusive on both ends). -/
def inForecastWindow (checkpoint_id : Nat) (t : Int) (f : Forecast) : Bool :=
  f.checkpoint_id = checkpoint_id &&
    t - FORECAST_TIME_TOLERANCE_HOURS * 3600 ≤ f.forecast_time &&
    f.forecast_time ≤ t + FORECAST_TIME_TOLERANCE_HOURS * 3600

/-- `yr_model_run_at DESC NULLS LAST`: `a` strictly precedes `b`. -/
def modelRunDescLt (a b : Option Int) : Bool :=
  match a, b with
  | some x, some y => y < x
  | some _, none => true
  | none, _ => false

/-- The `ORDER BY ABS(EXTRACT(EPOCH FROM (forecast_time - $2))),
yr_model_run_at DESC NULLS LAST, fetched_at DESC` comparison: `a` strictly
precedes `b` for target time `t`. -/
def sqlForecastLt (t : Int) (a b : Forecast) : Bool :=
  let da := (a.forecast_time - t).natAbs
  let db := (b.forecast_time - t).natAbs
  da < db ||
    (da = db &&
      (modelRunDescLt a.yr_model_run_at b.yr_model_run_at ||
        (a.yr_model_run_at = b.yr_model_run_at && b.fetched_at < a.fetched_at)))

/-- `db/queries.rs::get_latest_forecast`: nearest row within the ±3h window,
ties broken by newest model run then newest fetch (`LIMIT 1`). A fully tied
`ORDER BY` leaves the pick unspecified in SQL; the model picks the first row
in table order — no claim depends on that tie. -/
def get_latest_forecast (db : List Forecast) (checkpoint_id : Nat) (t : Int) :
    Option Forecast :=
  minByFirstWith (sqlForecastLt t) (db.filter (inForecastWindow checkpoint_id t))

/-- `db/queries.rs::get_latest_forecasts_batch`: one `get_latest_forecast`
result per input pair, in input order (the `WITH ORDINALITY` lateral join). -/
def get_latest_forecasts_batch (db : List Forecast) (pairs : List (Nat × Int)) :
    List (Option Forecast) :=
  pairs.map fun p => get_latest_forecast db p.1 p.2

/-- The composite dedup identity of §3 of the spec: rows with a known model-run
timestamp are identified by (checkpoint, forecast time, model run); rows with
an unknown model run by (checkpoint, forecast time). -/
def sameDedupKey (p : InsertForecastParams) (f : Forecast) : Bool :=
  f.checkpoint_id = p.checkpoint_id && f.forecast_time = p.forecast_time &&
    f.yr_model_run_at = p.yr_model_run_at

/-- The row a successful insert materialises from its params
(`created_at = NOW()`). -/
def forecastOfParams (now : Int) (p : InsertForecastParams) : Forecast :=
  { checkpoint_id := p.checkpoint_id
    forecast_time := p.forecast_time
    fetched_at := p.fetched_at
    source := p.source
    temperature_c := p.temperature_c
    temperature_percentile_10_c := p.temperature_percentile_10_c
    temperature_percentile_90_c := p.temperature_percentile_90_c
    wind_speed_ms := p.wind_speed_ms
    wind_speed_percentile_10_ms := p.wind_speed_percentile_10_ms
    wind_speed_percentile_90_ms := p.wind_speed_percentile_90_ms
    wind_direction_deg := p.wind_direction_deg
    wind_gust_ms := p.wind_gust_ms
    precipitation_mm := p.precipitation_mm
    precipitation_min_mm := p.precipitation_min_mm
    precipitation_max_mm := p.precipitation_max_mm
    humidity_pct := p.humidity_pct
    dew_point_c := p.dew_point_c
    cloud_cover_pct := p.cloud_cover_pct
    uv_index := p.uv_index
    symbol_code := p.symbol_code
    feels_like_c := p.feels_like_c
    precipitation_type := p.precipitation_type
    snow_temperature_c := some p.snow_temperature_c
    yr_model_run_at := p.yr_model_run_at
    created_at := now }

/-- Modelled from the spec: the deduplicating `insert_forecast` used by
`forecast.rs` and `poller.rs` (`insertForecastIfAbsent` of §6; the `ON
CONFLICT DO NOTHING` unique-index migrations and the checkpoint-keyed variant
of `db/queries.rs::insert_forecast` are not among the source files). Inserting
a row whose dedup key (see `sameDedupKey`) already exists is a silent no-op
reported as `none`; otherwise the materialised row is appended and returned. -/
def insert_forecast (db : List Forecast) (now : Int) (p : InsertForecastParams) :
    Option Forecast × List Forecast :=
  if db.any (sameDedupKey p) then (none, db)
  else
    let row := forecastOfParams now p
    (some row, db ++ [row])

-- ---------------------------------------------------------------------------
-- forecast.rs : the per-checkpoint timeseries cache
-- ---------------------------------------------------------------------------

/-- `db/models.rs::YrCachedResponse`, restricted to the fields
`ensure_yr_cache_fresh` reads (the location columns merely mirror the
checkpoint and are dropped; the payload is the typed document). -/
structure YrCachedResponse where
  fetched_at : Int
  expires_at : Int
  last_modified : Option String
  raw_response : YrResponse
deriving DecidableEq, Repr

/-- `yr.rs::YrTimeseriesResult`. The `expires` header is
`Option (Option Int)`: outer `none` = header absent, inner `none` = header
present but unparseable by `parse_expires_header`. -/
inductive YrTimeseriesResult
  | NewData (raw_json : YrResponse) (expires : Option (Option Int))
      (last_modified : Option String)
  | NotModified (expires : Option (Option Int)) (last_modified : Option String)
deriving DecidableEq, Repr

/-- `yr.rs::parse_expires_header`: the parsed value, or `now + 1h` when the
header does not parse. -/
def parse_expires_header (v : Option Int) (now : Int) : Int := v.getD (now + 3600)

/-- `expires.as_deref().map(parse_expires_header).unwrap_or_else(now + 1h)`. -/
def resolveExpires (expires : Option (Option Int)) (now : Int) : Int :=
  (expires.map fun v => parse_expires_header v now).getD (now + 3600)

/-- Modelled from the spec: `getFreshCache` (§6) — the checkpoint-keyed
`get_yr_cached_response` (`WHERE ... AND expires_at > NOW()`) is not among the
source files, only its location-keyed predecessor is. -/
def get_yr_cached_response (cache : Option YrCachedResponse) (now : Int) :
    Option YrCachedResponse :=
  cache.filter fun c => now < c.expires_at

/-- `forecast.rs::ensure_yr_cache_fresh` for one checkpoint. `cache` is the
checkpoint's `yr_responses` row (`get_yr_cached_response_any`); `fetch` is
`YrClient::fetch_timeseries` as a function of the `If-Modified-Since` token,
`.error` being its transport/non-success failure. Returns the payload and the
updated cache row. The `NotModified`-with-row branch models the spec's
`bumpCacheExpiry` (§6): expiry and token are updated, the payload and
`fetched_at` are untouched (the checkpoint-keyed
`update_yr_cache_expiry_and_last_modified` is not among the source files). -/
def ensure_yr_cache_fresh (cache : Option YrCachedResponse) (now : Int)
    (fetch : Option String → Except String YrTimeseriesResult) :
    Except String (YrResponse × Option YrCachedResponse) :=
  match get_yr_cached_response cache now with
  | some cached => .ok (cached.raw_response, cache)
  | none =>
    let existing := cache
    let if_modified_since := existing.bind (·.last_modified)
    match fetch if_modified_since with
    | .error e => .error e
    | .ok (.NewData raw_json expires last_modified) =>
      let expires_at := resolveExpires expires now
      .ok (raw_json, some ⟨now, expires_at, last_modified, raw_json⟩)
    | .ok (.NotModified expires last_modified) =>
      match existing with
      | some cached =>
        let new_expires := resolveExpires expires now
        .ok (cached.raw_response,
          some { cached with
                  expires_at := new_expires
                  last_modified := last_modified.or cached.last_modified })
      | none => .error "yr.no returned 304 but no cached data exists"

-- ---------------------------------------------------------------------------
-- forecast.rs : single- and batch-checkpoint resolution
-- ---------------------------------------------------------------------------

/-- `forecast.rs::build_single_insert_params` (the `Decimal → f64 → Decimal`
round trips are exact over `ℚ`; `format!("{:.1}")` is `f64_to_decimal_1dp`). -/
def build_single_insert_params (powf : ℚ → ℚ → ℚ) (checkpoint_id : Nat)
    (parsed : YrParsedForecast) (fetched_at : Int) : InsertForecastParams :=
  let temp_c := parsed.temperature_c
  let wind_ms := parsed.wind_speed_ms
  let precip_mm := parsed.precipitation_mm
  let feels_like := calculate_feels_like powf temp_c wind_ms
  let precip_type := infer_precipitation_type parsed.symbol_code temp_c precip_mm
  let feels_like_dec := f64_to_decimal_1dp feels_like
  let cloud_pct := parsed.cloud_cover_pct
  let dew_point := parsed.dew_point_c
  let snow_temp := calculate_snow_temperature temp_c dew_point cloud_pct wind_ms
  let snow_temp_dec := f64_to_decimal_1dp snow_temp
  { checkpoint_id := checkpoint_id
    forecast_time := parsed.forecast_time
    fetched_at := fetched_at
    source := "yr.no"
    temperature_c := parsed.temperature_c
    temperature_percentile_10_c := parsed.temperature_percentile_10_c
    temperature_percentile_90_c := parsed.temperature_percentile_90_c
    wind_speed_ms := parsed.wind_speed_ms
    wind_speed_percentile_10_ms := parsed.wind_speed_percentile_10_ms
    wind_speed_percentile_90_ms := parsed.wind_speed_percentile_90_ms
    wind_direction_deg := parsed.wind_direction_deg
    wind_gust_ms := parsed.wind_gust_ms
    precipitation_mm := parsed.precipitation_mm
    precipitation_min_mm := parsed.precipitation_min_mm
    precipitation_max_mm := parsed.precipitation_max_mm
    humidity_pct := parsed.humidity_pct
    dew_point_c := parsed.dew_point_c
    cloud_cover_pct := parsed.cloud_cover_pct
    uv_index := parsed.uv_index
    symbol_code := parsed.symbol_code
    feels_like_c := feels_like_dec
    precipitation_type := precip_type
    snow_temperature_c := snow_temp_dec
    yr_model_run_at := parsed.yr_model_run_at }

/-- `forecast.rs::resolve_forecast` for a checkpoint identified by
`checkpoint_id` (the fetch closes over the checkpoint's coordinates). Returns
the `(Option<Forecast>, is_stale, Option<horizon>)` triple; the forecast-table
write is threaded internally into the canonical re-read. -/
def resolve_forecast (powf : ℚ → ℚ → ℚ) (db : List Forecast)
    (cache : Option YrCachedResponse) (now : Int)
    (fetch : Option String → Except String YrTimeseriesResult)
    (checkpoint_id : Nat) (forecast_time : Int) :
    Except String (Option Forecast × Bool × Option Int) :=
  match ensure_yr_cache_fresh cache now fetch with
  | .error _ =>
    match get_latest_forecast db checkpoint_id forecast_time with
    | some forecast => .ok (some forecast, true, none)
    | none => .error "yr.no unavailable and no cached data"
  | .ok (raw_json, _) =>
    match extract_forecasts_at_times raw_json [forecast_time] with
    | .error e => .error e
    | .ok er =>
      match er.forecasts.headD none with
      | some forecast_data =>
        let params := build_single_insert_params powf checkpoint_id forecast_data now
        let db2 := (insert_forecast db now params).2
        let forecast := get_latest_forecast db2 checkpoint_id forecast_time
        .ok (forecast, false, some er.forecast_horizon)
      | none => .ok (none, false, some er.forecast_horizon)

/-- `forecast.rs::CheckpointWithTime` (checkpoints identified by id). -/
structure CheckpointWithTime where
  checkpoint_id : Nat
  forecast_time : Int
deriving DecidableEq, Repr

instance : Inhabited CheckpointWithTime := ⟨⟨0, 0⟩⟩

/-- `forecast.rs::ResolvedForecast`. -/
structure ResolvedForecast where
  forecast : Option Forecast
  is_stale : Bool
  forecast_horizon : Option Int
deriving DecidableEq, Repr

/-- The Step-3 fill loop of `resolve_race_forecasts`: pending (`none`) slots
consume the re-query iterator (`requery_iter.next().unwrap_or(None)`) and take
`horizons[idx]`. -/
def fillPending (horizons : List (Option Int)) :
    Nat → List (Option ResolvedForecast) → List (Option Forecast) →
    List (Option ResolvedForecast)
  | _, [], _ => []
  | idx, none :: rs, q =>
    some ⟨q.headD none, false, (horizons.getD idx none)⟩ ::
      fillPending horizons (idx + 1) rs q.tail
  | idx, some r :: rs, q => some r :: fillPending horizons (idx + 1) rs q

/-- `forecast.rs::resolve_race_forecasts`.

`fetchOutcome i` is the (deterministic) result `ensure_yr_cache_fresh` produces
for the `i`-th input checkpoint. `order` is the COMPLETION order of the
`buffer_unordered(MAX_CONCURRENT_YR_FETCHES)` stream: `futures::stream`'s
`buffer_unordered` yields outputs as the concurrently running futures finish,
so `fetch_results` is `order.map fetchOutcome`; with at most 4 checkpoints
every permutation of the input indices is an admissible completion order. The
subsequent `for (idx, fetch_result) in fetch_results.into_iter().enumerate()`
loop pairs the `idx`-th COMPLETED result with the `idx`-th INPUT checkpoint.
The concurrent Step-2b inserts are folded left (their relative order is
unobservable through the deduplicating insert in any claim below). -/
def resolve_race_forecasts (powf : ℚ → ℚ → ℚ) (db : List Forecast) (now : Int)
    (checkpoints : List CheckpointWithTime)
    (fetchOutcome : Nat → Except String YrResponse)
    (order : List Nat) :
    Except String (List ResolvedForecast) :=
  let n := checkpoints.length
  -- Step 1: bounded-parallel cache refresh; results arrive in completion order.
  let fetch_results : List (Except String YrResponse) := order.map fetchOutcome
  -- Step 2: pre-fetch the stale-fallback rows, then branch per result.
  let pairs := checkpoints.map fun c => (c.checkpoint_id, c.forecast_time)
  let cached_forecasts := get_latest_forecasts_batch db pairs
  let step2 :=
    fetch_results.enum.foldl
      (fun (acc : Except String
              (List (Option ResolvedForecast) × List (Option Int) ×
                List InsertForecastParams)) x =>
        match acc with
        | .error e => .error e
        | .ok (results, horizons, insert_params) =>
          let idx := x.1
          match x.2 with
          | .ok raw_json =>
            let forecast_time := (checkpoints.getD idx default).forecast_time
            match extract_forecasts_at_times raw_json [forecast_time] with
            | .error e => .error e
            | .ok er =>
              match er.forecasts.headD none with
              | some forecast_data =>
                let params := build_single_insert_params powf
                  (checkpoints.getD idx default).checkpoint_id forecast_data now
                .ok (results, horizons.set idx (some er.forecast_horizon),
                  insert_params ++ [params])
              | none =>
                .ok (results.set idx (some ⟨none, false, some er.forecast_horizon⟩),
                  horizons, insert_params)
          | .error _ =>
            match cached_forecasts.getD idx none with
            | some cached =>
              .ok (results.set idx (some ⟨some cached, true, none⟩), horizons,
                insert_params)
            | none => .error "yr.no unavailable for checkpoint and no cached data")
      (.ok (List.replicate n none, List.replicate n none, []))
  match step2 with
  | .error e => .error e
  | .ok (results, horizons, insert_params) =>
    -- Step 2b: concurrent deduplicating inserts.
    let db2 := insert_params.foldl (fun d p => (insert_forecast d now p).2) db
    -- Step 3: batched re-query for every index still pending, fill in order.
    let requery_pairs :=
      (results.enum.filter fun p => p.2.isNone).map fun p =>
        ((checkpoints.getD p.1 default).checkpoint_id,
          (checkpoints.getD p.1 default).forecast_time)
    let requeried := get_latest_forecasts_batch db2 requery_pairs
    let filled := fillPending horizons 0 results requeried
    mapExceptList
      (fun r =>
        match r with
        | some x => .ok x
        | none => .error "Missing resolved forecast for checkpoint index")
      filled

-- ---------------------------------------------------------------------------
-- Spec-side predicates used by the claims
-- ---------------------------------------------------------------------------

/-- The claim's "entry whose key is smallest, ties broken by first occurrence
in list order": `e` splits the list so that everything before it is strictly
worse and everything after it is no better. -/
def IsFirstMin (f : α → Nat) (l : List α) (e : α) : Prop :=
  ∃ l₁ l₂, l = l₁ ++ e :: l₂ ∧ (∀ a ∈ l₁, f e < f a) ∧ (∀ a ∈ l₂, f e ≤ f a)

-- ---------------------------------------------------------------------------
-- Concrete inputs used by counterexamples and witnesses
-- ---------------------------------------------------------------------------

/-- A timeseries entry with the given (pre-parsed) timestamp and resolution
tier, with representative instantaneous fields. -/
def mkEntry (t : Option Int) (hourly : Bool) : YrTimeseries :=
  { time := t
    data :=
      { instant := ⟨some (-5), none, none, some 3, none, none, some 180, none,
          some 75, some (-8), some 50, none⟩
        next_1_hours :=
          if hourly then some ⟨some ⟨some "cloudy"⟩, some ⟨some 0, none, none⟩⟩ else none
        next_6_hours :=
          if hourly then none else some ⟨some ⟨some "cloudy"⟩, some ⟨some 0, none, none⟩⟩ } }

/-- An arbitrary interpretation of `f64::powf` for closed instances. -/
def pfZero : ℚ → ℚ → ℚ := fun _ _ => 0

/-- C1 counterexample: two checkpoints requesting time 50000. -/
def c1Cps : List CheckpointWithTime := [⟨1, 50000⟩, ⟨2, 50000⟩]

/-- C1 counterexample: checkpoint 0's payload has horizon 3600, checkpoint 1's
has horizon 72000; both are far outside tolerance of the requested time. -/
def c1Fetch : Nat → Except String YrResponse :=
  fun i =>
    if i = 0 then .ok ⟨⟨none, [mkEntry (some 3600) true]⟩⟩
    else .ok ⟨⟨none, [mkEntry (some 72000) true]⟩⟩

/-- C2 witness payload: a single hourly entry at time 0. -/
def w2Resp : YrResponse := ⟨⟨none, [mkEntry (some 0) true]⟩⟩

/-- C7 counterexample payload: parseable timestamps appear as [200, 100] in
payload order, so the positionally last one (100) is not the maximum (200). -/
def c7Resp : YrResponse := ⟨⟨none, [mkEntry (some 200) true, mkEntry (some 100) true]⟩⟩

/-- C7 witness payload: chronologically ordered timestamps [100, 200]. -/
def w7Resp : YrResponse := ⟨⟨none, [mkEntry (some 100) true, mkEntry (some 200) true]⟩⟩

/-- C8 witness payload: one unparseable-timestamp entry followed by one valid
hourly entry at time 7200. -/
def w8Resp : YrResponse := ⟨⟨none, [mkEntry none true, mkEntry (some 7200) true]⟩⟩

/-- C5 witness: an expired cache row. -/
def w5Row : YrCachedResponse := ⟨5, 10, some "tok", w2Resp⟩

/-- C5 witness: upstream answers 304 with a parseable Expires header (100). -/
def w5Fetch : Option String → Except String YrTimeseriesResult :=
  fun _ => .ok (.NotModified (some (some 100)) none)

/-- C6 witness: an upstream fetch that fails at the transport level. -/
def wFetchFail : Option String → Except String YrTimeseriesResult :=
  fun _ => .error "connection refused"

/-- C6 witness: a stored forecast row for checkpoint 7 at time 900 (within the
±3 h window of the requested time 1000). -/
def w6Row : Forecast :=
  { checkpoint_id := 7, forecast_time := 900, fetched_at := 50, source := "yr.no"
    temperature_c := -5, temperature_percentile_10_c := none
    temperature_percentile_90_c := none, wind_speed_ms := 3
    wind_speed_percentile_10_ms := none, wind_speed_percentile_90_ms := none
    wind_direction_deg := 180, wind_gust_ms := none, precipitation_mm := 0
    precipitation_min_mm := none, precipitation_max_mm := none, humidity_pct := 75
    dew_point_c := -8, cloud_cover_pct := 50, uv_index := none
    symbol_code := "cloudy", feels_like_c := -5, precipitation_type := "none"
    snow_temperature_c := some (-9), yr_model_run_at := some 40, created_at := 60 }

-- ---------------------------------------------------------------------------
-- Helper lemmas: minByFirstWith / minByFirst
-- ---------------------------------------------------------------------------

theorem minByFirstWith_foldl_mem (lt : α → α → Bool) :
    ∀ (l : List α) (acc : Option α) (x : α),
      l.foldl
          (fun acc x =>
            match acc with
            | none => some x
            | some m => if lt x m then some x else some m)
          acc = some x →
      acc = some x ∨ x ∈ l := by
  intro l
  induction l with
  | nil => intro acc x h; exact Or.inl h
  | cons h t ih =>
    intro acc x hfold
    simp only [List.foldl_cons] at hfold
    rcases ih _ _ hfold with hstep | hmem
    · cases acc with
      | none =>
        simp only [Option.some.injEq] at hstep
        subst hstep
        exact Or.inr (List.mem_cons_self _ _)
      | some m =>
        simp only at hstep
        by_cases hlt : lt h m
        · rw [if_pos hlt, Option.some.injEq] at hstep
          subst hstep
          exact Or.inr (List.mem_cons_self _ _)
        · rw [if_neg hlt] at hstep
          exact Or.inl hstep
    · exact Or.inr (List.mem_cons_of_mem h hmem)

theorem minByFirstWith_mem {lt : α → α → Bool} {l : List α} {x : α}
    (h : minByFirstWith lt l = some x) : x ∈ l := by
  rcases minByFirstWith_foldl_mem lt l none x h with h' | h'
  · cases h'
  · exact h'

theorem minByFirstWith_foldl_isSome (lt : α → α → Bool) :
    ∀ (l : List α) (acc : Option α), acc.isSome ∨ l ≠ [] →
      (l.foldl
          (fun acc x =>
            match acc with
            | none => some x
            | some m => if lt x m then some x else some m)
          acc).isSome := by
  intro l
  induction l with
  | nil =>
    intro acc h
    rcases h with h | h
    · simpa using h
    · exact absurd rfl h
  | cons h t ih =>
    intro acc _
    simp only [List.foldl_cons]
    apply ih
    left
    cases acc with
    | none => rfl
    | some m =>
      by_cases hlt : lt h m <;> simp [hlt]

theorem minByFirstWith_isSome (lt : α → α → Bool) {l : List α} (h : l ≠ []) :
    ∃ x, minByFirstWith lt l = some x := by
  have := minByFirstWith_foldl_isSome lt l none (Or.inr h)
  exact Option.isSome_iff_exists.mp this

theorem minByFirstWith_keep (lt : α → α → Bool) :
    ∀ (l : List α) (e : α), (∀ a ∈ l, lt a e = false) →
      l.foldl
          (fun acc x =>
            match acc with
            | none => some x
            | some m => if lt x m then some x else some m)
          (some e) = some e := by
  intro l
  induction l with
  | nil => intro e _; rfl
  | cons h t ih =>
    intro e hno
    simp only [List.foldl_cons]
    have hh : lt h e = false := hno h (List.mem_cons_self h t)
    simp only [hh, if_neg Bool.false_ne_true]
    exact ih e fun a ha => hno a (List.mem_cons_of_mem h ha)

theorem minByFirst_foldl_aux {f : α → Nat} (e : α) :
    ∀ (l₁ l₂ : List α) (acc : Option α),
      (∀ m, acc = some m → f e < f m) →
      (∀ a ∈ l₁, f e < f a) →
      (∀ a ∈ l₂, f e ≤ f a) →
      (l₁ ++ e :: l₂).foldl
          (fun acc x =>
            match acc with
            | none => some x
            | some m => if decide (f x < f m) = true then some x else some m)
          acc = some e := by
  intro l₁
  induction l₁ with
  | nil =>
    intro l₂ acc hacc _ hafter
    simp only [List.nil_append, List.foldl_cons]
    have hkeep := minByFirstWith_keep (fun a b => decide (f a < f b)) l₂ e fun a ha => by
      simp [not_lt.mpr (hafter a ha)]
    cases acc with
    | none => exact hkeep
    | some m =>
      have hm : decide (f e < f m) = true := by simp [hacc m rfl]
      simp only [hm, if_true]
      exact hkeep
  | cons h t ih =>
    intro l₂ acc hacc hl₁ hafter
    simp only [List.cons_append, List.foldl_cons]
    apply ih
    · intro m hm
      cases acc with
      | none =>
        simp only [Option.some.injEq] at hm
        exact hm ▸ hl₁ h (List.mem_cons_self _ _)
      | some m0 =>
        simp only at hm
        by_cases hlt : decide (f h < f m0) = true
        · rw [if_pos hlt, Option.some.injEq] at hm
          exact hm ▸ hl₁ h (List.mem_cons_self _ _)
        · rw [if_neg hlt, Option.some.injEq] at hm
          exact hm ▸ hacc m0 rfl
    · intro a ha
      exact hl₁ a (List.mem_cons_of_mem h ha)
    · exact hafter

/-- `min_by_key` returns exactly the first element realising the minimum. -/
theorem minByFirst_of_isFirstMin {f : α → Nat} {l : List α} {e : α}
    (h : IsFirstMin f l e) : minByFirst f l = some e := by
  obtain ⟨l₁, l₂, rfl, hbefore, hafter⟩ := h
  exact minByFirst_foldl_aux e l₁ l₂ none (by intro m hm; cases hm) hbefore hafter

-- ---------------------------------------------------------------------------
-- Helper lemmas: mapExceptList
-- ---------------------------------------------------------------------------

theorem mapExceptList_ok_get {f : α → Except String β} :
    ∀ {ts : List α} {rs : List β}, mapExceptList f ts = .ok rs →
      rs.length = ts.length ∧
        ∀ (i : Nat) (t : α), ts.get? i = some t →
          ∃ r, rs.get? i = some r ∧ f t = .ok r := by
  intro ts
  induction ts with
  | nil =>
    intro rs h
    simp only [mapExceptList, Except.ok.injEq] at h
    subst h
    exact ⟨rfl, by intro i t ht; simp at ht⟩
  | cons t ts ih =>
    intro rs h
    simp only [mapExceptList] at h
    rcases hft : f t with e | r
    · rw [hft] at h; cases h
    · rw [hft] at h
      rcases hrest : mapExceptList f ts with e | rs'
      · rw [hrest] at h; cases h
      · rw [hrest] at h
        simp only [Except.ok.injEq] at h
        subst h
        obtain ⟨hlen, hget⟩ := ih hrest
        refine ⟨by simp [hlen], ?_⟩
        intro i u hu
        cases i with
        | zero =>
          simp only [List.get?] at hu ⊢
          cases hu
          exact ⟨r, rfl, hft⟩
        | succ j =>
          simp only [List.get?] at hu ⊢
          exact hget j u hu

theorem mapExceptList_total {f : α → Except String β} {ts : List α}
    (h : ∀ t ∈ ts, ∃ r, f t = .ok r) : ∃ rs, mapExceptList f ts = .ok rs := by
  induction ts with
  | nil => exact ⟨[], rfl⟩
  | cons t ts ih =>
    obtain ⟨r, hr⟩ := h t (List.mem_cons_self _ _)
    obtain ⟨rs, hrs⟩ := ih fun u hu => h u (List.mem_cons_of_mem t hu)
    exact ⟨r :: rs, by simp [mapExceptList, hr, hrs]⟩

-- ---------------------------------------------------------------------------
-- Helper lemmas: the extractor
-- ---------------------------------------------------------------------------

theorem parsedEntries_time {resp : YrResponse} :
    ∀ q ∈ parsedEntries resp, q.2.time = some q.1 := by
  intro q hq
  simp only [parsedEntries, List.mem_filterMap] at hq
  obtain ⟨ts, _, hts⟩ := hq
  rcases htime : ts.time with _ | t
  · rw [htime] at hts; cases hts
  · rw [htime] at hts
    simp only [Option.map_some', Option.some.injEq] at hts
    rw [← hts]
    exact htime

theorem parsedEntries_ne_nil_iff {resp : YrResponse} :
    parsedEntries resp ≠ [] ↔ validTimes resp ≠ [] := by
  unfold validTimes
  constructor
  · intro h hc
    exact h (List.map_eq_nil_iff.mp hc)
  · intro h hc
    exact h (by rw [hc]; rfl)

theorem timeseries_ne_nil_of_parsed {resp : YrResponse}
    (h : parsedEntries resp ≠ []) : resp.properties.timeseries ≠ [] := by
  intro hc
  apply h
  unfold parsedEntries
  rw [hc]
  rfl

/-- `parse_timeseries_entry` succeeds on every entry of `parsedEntries`, with
the entry's own timestamp and the period-detail-determined resolution. -/
theorem parse_entry_of_parsed {resp : YrResponse} {q : Int × YrTimeseries}
    (hq : q ∈ parsedEntries resp) :
    ∃ p, parse_timeseries_entry q.2 = .ok p ∧ p.forecast_time = q.1 ∧
      p.resolution = (if q.2.data.next_1_hours.isSome then ForecastResolution.Hourly
        else ForecastResolution.SixHourly) := by
  have htime := parsedEntries_time q hq
  unfold parse_timeseries_entry
  rw [htime]
  exact ⟨_, rfl, rfl, rfl⟩

/-- On a payload with at least one parseable timestamp, the per-time loop body
always succeeds. -/
theorem extractAtTime_ok {resp : YrResponse} (m : Option Int) (ft : Int)
    (hne : parsedEntries resp ≠ []) :
    ∃ r, extractAtTime m (parsedEntries resp) ft = .ok r := by
  obtain ⟨closest, hclosest⟩ :=
    minByFirstWith_isSome (fun a b =>
      decide ((a.1 - ft).natAbs < (b.1 - ft).natAbs)) hne
  have hmem : closest ∈ parsedEntries resp := minByFirstWith_mem hclosest
  obtain ⟨p, hp, _, _⟩ := parse_entry_of_parsed hmem
  unfold extractAtTime minByFirst
  rw [hclosest]
  dsimp only
  rw [hp]
  dsimp only
  split
  · exact ⟨none, rfl⟩
  · exact ⟨some _, rfl⟩

/-- Unfolding of `extract_forecasts_at_times` on a payload with at least one
parseable timestamp. -/
theorem extract_eq_of_valid {resp : YrResponse} {lastE : Int × YrTimeseries}
    (hne : parsedEntries resp ≠ [])
    (hlast : (parsedEntries resp).getLast? = some lastE) (times : List Int) :
    extract_forecasts_at_times resp times =
      match mapExceptList (extractAtTime resp.properties.updatedAt (parsedEntries resp)) times with
      | .error e => .error e
      | .ok results => .ok { forecasts := results, forecast_horizon := lastE.1 } := by
  unfold extract_forecasts_at_times
  dsimp only
  rw [if_neg (by simpa [List.isEmpty_iff] using timeseries_ne_nil_of_parsed hne), hlast]

/-- The extractor succeeds on every payload with a parseable timestamp, and its
horizon is the positionally last parseable timestamp. -/
theorem extract_ok_of_valid {resp : YrResponse} (times : List Int)
    (hne : parsedEntries resp ≠ []) :
    ∃ res, extract_forecasts_at_times resp times = .ok res ∧
      ∃ lastE, (parsedEntries resp).getLast? = some lastE ∧
        res.forecast_horizon = lastE.1 ∧
        mapExceptList (extractAtTime resp.properties.updatedAt (parsedEntries resp)) times
          = .ok res.forecasts := by
  have hlastSome : ((parsedEntries resp).getLast?).isSome := List.getLast?_isSome.mpr hne
  obtain ⟨lastE, hlast⟩ := Option.isSome_iff_exists.mp hlastSome
  obtain ⟨rs, hrs⟩ := mapExceptList_total fun t _ =>
    extractAtTime_ok resp.properties.updatedAt t hne
  refine ⟨{ forecasts := rs, forecast_horizon := lastE.1 }, ?_, lastE, hlast, rfl, hrs⟩
  rw [extract_eq_of_valid hne hlast times, hrs]

/-- Inversion of a successful extraction: the payload had a parseable
timestamp, the per-time loop produced the forecasts, and the horizon is the
positionally last parseable timestamp. -/
theorem extract_ok_inv {resp : YrResponse} {times : List Int} {res : ExtractionResult}
    (h : extract_forecasts_at_times resp times = .ok res) :
    parsedEntries resp ≠ [] ∧
    mapExceptList (extractAtTime resp.properties.updatedAt (parsedEntries resp)) times
      = .ok res.forecasts ∧
    ∃ lastE, (parsedEntries resp).getLast? = some lastE ∧ res.forecast_horizon = lastE.1 := by
  by_cases hpe : parsedEntries resp = []
  · exfalso
    unfold extract_forecasts_at_times at h
    by_cases hts : resp.properties.timeseries.isEmpty
    · rw [if_pos hts] at h; cases h
    · rw [if_neg hts] at h
      dsimp only at h
      rw [show (parsedEntries resp).getLast? = none by rw [hpe]; rfl] at h
      cases h
  · obtain ⟨lastE, hlast⟩ :=
      Option.isSome_iff_exists.mp (List.getLast?_isSome.mpr hpe)
    rw [extract_eq_of_valid hpe hlast times] at h
    rcases hmap : mapExceptList (extractAtTime resp.properties.updatedAt (parsedEntries resp))
        times with e | rs
    · rw [hmap] at h; cases h
    · rw [hmap] at h
      simp only [Except.ok.injEq] at h
      subst h
      exact ⟨hpe, rfl, lastE, hlast, rfl⟩

/-- A per-time loop body that returned a forecast returned one stamped with
the timestamp of a parseable payload entry — never a defaulted value. -/
theorem extractAtTime_some_mem {resp : YrResponse} {m : Option Int} {ft : Int}
    {o : Option YrParsedForecast}
    (h : extractAtTime m (parsedEntries resp) ft = .ok o) :
    ∀ p, o = some p → p.forecast_time ∈ validTimes resp := by
  intro p hop
  subst hop
  unfold extractAtTime at h
  rcases hmin : minByFirst (fun q => (q.1 - ft).natAbs) (parsedEntries resp) with _ | closest
  · rw [hmin] at h; cases h
  · rw [hmin] at h
    dsimp only at h
    have hmem : closest ∈ parsedEntries resp := minByFirstWith_mem hmin
    obtain ⟨p0, hp0, hpt, _⟩ := parse_entry_of_parsed hmem
    rw [hp0] at h
    dsimp only at h
    split at h
    · cases h
    · simp only [Except.ok.injEq, Option.some.injEq] at h
      have : p.forecast_time = closest.1 := by rw [← h]; exact hpt
      rw [this]
      exact List.mem_map_of_mem Prod.fst hmem

-- ---------------------------------------------------------------------------
-- Helper lemmas: pacing
-- ---------------------------------------------------------------------------

theorem segmentCost_nonneg (a b : PacingCheckpoint) : 0 ≤ segmentCost a b := by
  unfold segmentCost
  dsimp only
  split
  · exact le_refl 0
  · rename_i hd
    have hpos : (0 : ℚ) < b.distance_km - a.distance_km := lt_of_not_le hd
    have hfac : (0 : ℚ) ≤
        (if (b.elevation_m - a.elevation_m) / ((b.distance_km - a.distance_km) * 1000) ≥ 0 then
          max (1 + K_UP * ((b.elevation_m - a.elevation_m) / ((b.distance_km - a.distance_km) * 1000)))
            MIN_COST_FACTOR
        else
          max (1 - K_DOWN * |(b.elevation_m - a.elevation_m) / ((b.distance_km - a.distance_km) * 1000)|)
            MIN_COST_FACTOR) := by
      split <;>
        exact le_trans (by norm_num [MIN_COST_FACTOR]) (le_max_right _ _)
    exact mul_nonneg hfac (le_of_lt hpos)

theorem mem_zipWith_imp {f : α → β → γ} :
    ∀ {l1 : List α} {l2 : List β} {x : γ}, x ∈ List.zipWith f l1 l2 → ∃ a b, x = f a b := by
  intro l1
  induction l1 with
  | nil => intro l2 x hx; simp at hx
  | cons a t ih =>
    intro l2 x hx
    cases l2 with
    | nil => simp at hx
    | cons b t2 =>
      simp only [List.zipWith_cons_cons, List.mem_cons] at hx
      rcases hx with rfl | hx
      · exact ⟨a, b, rfl⟩
      · exact ih hx

theorem segmentCosts_nonneg (l : List PacingCheckpoint) : ∀ c ∈ segmentCosts l, 0 ≤ c := by
  intro c hc
  obtain ⟨a, b, rfl⟩ := mem_zipWith_imp hc
  exact segmentCost_nonneg a b

theorem cumFractions_length (T : ℚ) :
    ∀ (acc : ℚ) (cs : List ℚ), (cumFractions T acc cs).length = cs.length := by
  intro acc cs
  induction cs generalizing acc with
  | nil => rfl
  | cons c rest ih => simp [cumFractions, ih]

theorem cumFractions_chain (T : ℚ) (hT : 0 < T) :
    ∀ (cs : List ℚ) (acc : ℚ), (∀ c ∈ cs, 0 ≤ c) →
      List.Chain' (· ≤ ·) (acc / T :: cumFractions T acc cs) := by
  intro cs
  induction cs with
  | nil => intro acc _; exact List.chain'_singleton _
  | cons c rest ih =>
    intro acc hc
    show List.Chain' (· ≤ ·) (acc / T :: (acc + c) / T :: cumFractions T (acc + c) rest)
    rw [List.chain'_cons]
    constructor
    · exact (div_le_div_iff_of_pos_right hT).mpr (by linarith [hc c (List.mem_cons_self c rest)])
    · exact ih (acc + c) fun x hx => hc x (List.mem_cons_of_mem c hx)

theorem cumFractions_le (T : ℚ) (hT : 0 < T) :
    ∀ (cs : List ℚ) (acc : ℚ), (∀ c ∈ cs, 0 ≤ c) →
      ∀ x ∈ cumFractions T acc cs, x ≤ (acc + cs.sum) / T := by
  intro cs
  induction cs with
  | nil => intro acc _ x hx; cases hx
  | cons c rest ih =>
    intro acc hc x hx
    have hrest : (0 : ℚ) ≤ rest.sum :=
      List.sum_nonneg fun y hy => hc y (List.mem_cons_of_mem c hy)
    rcases List.mem_cons.mp hx with rfl | hx'
    · exact (div_le_div_iff_of_pos_right hT).mpr (by simp [List.sum_cons]; linarith)
    · have := ih (acc + c) (fun y hy => hc y (List.mem_cons_of_mem c hy)) x hx'
      calc x ≤ (acc + c + rest.sum) / T := this
        _ = (acc + (c :: rest).sum) / T := by rw [List.sum_cons]; ring_nf

theorem setLastOne_length : ∀ l : List ℚ, (setLastOne l).length = l.length
  | [] => rfl
  | [_] => rfl
  | x :: y :: rest => by
    show (x :: setLastOne (y :: rest)).length = _
    simp [setLastOne_length (y :: rest)]

theorem setLastOne_getLast? : ∀ l : List ℚ, l ≠ [] → (setLastOne l).getLast? = some 1
  | [], h => absurd rfl h
  | [_], _ => rfl
  | x :: y :: rest, _ => by
    show (x :: setLastOne (y :: rest)).getLast? = some 1
    cases rest with
    | nil => rfl
    | cons z r =>
      show (x :: y :: setLastOne (z :: r)).getLast? = some 1
      rw [List.getLast?_cons_cons]
      exact setLastOne_getLast? (y :: z :: r) (List.cons_ne_nil _ _)

theorem setLastOne_chain : ∀ l : List ℚ, List.Chain' (· ≤ ·) l → (∀ x ∈ l, x ≤ 1) →
    List.Chain' (· ≤ ·) (setLastOne l)
  | [], _, _ => List.chain'_nil
  | [_], _, _ => List.chain'_singleton 1
  | x :: y :: rest, hchain, hle => by
    show List.Chain' (· ≤ ·) (x :: setLastOne (y :: rest))
    rw [List.chain'_cons']
    refine ⟨?_, setLastOne_chain (y :: rest) (List.chain'_cons.mp hchain).2
      fun a ha => hle a (List.mem_cons_of_mem _ ha)⟩
    intro h hh
    cases rest with
    | nil =>
      have : h = 1 := by
        simpa [setLastOne] using hh.symm
      rw [this]
      exact hle x (List.mem_cons_self _ _)
    | cons z r =>
      have : h = y := by
        have hform : setLastOne (y :: z :: r) = y :: setLastOne (z :: r) := rfl
        rw [hform] at hh
        simpa using hh.symm
      rw [this]
      exact (List.chain'_cons.mp hchain).1

theorem setLastOne_head? (x y : ℚ) (rest : List ℚ) :
    (setLastOne (x :: y :: rest)).head? = some x := rfl

-- ---------------------------------------------------------------------------
-- C10
-- ---------------------------------------------------------------------------

/-- C10: for every symbol code, temperature and precipitation amount,
`infer_precipitation_type` returns exactly one of "none", "snow", "sleet",
"rain", and returns "none" whenever the precipitation amount is `≤ 0`
(including negative inputs), regardless of symbol code or temperature. -/
theorem claim_C10 (symbol_code : String) (temperature_c precipitation_mm : ℚ) :
    (infer_precipitation_type symbol_code temperature_c precipitation_mm = "none" ∨
      infer_precipitation_type symbol_code temperature_c precipitation_mm = "snow" ∨
      infer_precipitation_type symbol_code temperature_c precipitation_mm = "sleet" ∨
      infer_precipitation_type symbol_code temperature_c precipitation_mm = "rain") ∧
    (precipitation_mm ≤ 0 →
      infer_precipitation_type symbol_code temperature_c precipitation_mm = "none") := by
  constructor
  · unfold infer_precipitation_type
    by_cases h1 : precipitation_mm ≤ 0
    · simp [h1]
    by_cases h2 : strContains (toLowerStr symbol_code) "snow" = true
    · simp [h1, h2]
    by_cases h3 : strContains (toLowerStr symbol_code) "sleet" = true
    · simp [h1, h2, h3]
    by_cases h4 : (strContains (toLowerStr symbol_code) "rain" ||
        strContains (toLowerStr symbol_code) "drizzle") = true
    · simp [h1, h2, h3, h4]
    by_cases h5 : temperature_c < 0
    · simp [h1, h2, h3, h4, h5]
    by_cases h6 : temperature_c ≤ 2
    · simp [h1, h2, h3, h4, h5, h6]
    · simp [h1, h2, h3, h4, h5, h6]
  · intro h
    unfold infer_precipitation_type
    rw [if_pos h]

/-- C10 witness: a snowy symbol code with negative precipitation still yields
"none". -/
theorem claim_C10_witness :
    ((-1 : ℚ) ≤ 0) ∧ infer_precipitation_type "heavysnow" (-5) (-1) = "none" :=
  ⟨by norm_num, (claim_C10 "heavysnow" (-5) (-1)).2 (by norm_num)⟩

-- ---------------------------------------------------------------------------
-- C4
-- ---------------------------------------------------------------------------

/-- C4: re-inserting a forecast record with the same composite dedup identity
(`(checkpoint, forecast time, model run)` when the model run is known,
`(checkpoint, forecast time)` when it is unknown — `sameDedupKey`) is a silent
no-op: the second insert reports "not inserted" (`none`) and leaves the stored
rows — in particular the row count — unchanged, and is not an error. -/
theorem claim_C4 (db : List Forecast) (now now2 : Int) (p : InsertForecastParams) :
    (insert_forecast (insert_forecast db now p).2 now2 p).1 = none ∧
    (insert_forecast (insert_forecast db now p).2 now2 p).2 = (insert_forecast db now p).2 := by
  unfold insert_forecast
  by_cases h : db.any (sameDedupKey p) = true
  · simp [h]
  · have hrow : sameDedupKey p (forecastOfParams now p) = true := by
      simp [sameDedupKey, forecastOfParams]
    simp [h, hrow]

-- ---------------------------------------------------------------------------
-- C1
-- ---------------------------------------------------------------------------

/-- C1 is FALSE of the code: `resolve_race_forecasts` pairs the
completion-ordered outputs of `buffer_unordered` with input indices via
`enumerate`, so when the second checkpoint's upstream fetch completes first
(completion order `[1, 0]`), the first element of the returned vector is built
from checkpoint 1's payload (horizon 72000), not from checkpoint 0's
resolution outcome (horizon 3600) — compare the in-order completion `[0, 1]`.
-/
theorem claim_C1_bug :
    resolve_race_forecasts pfZero [] 0 c1Cps c1Fetch [1, 0] =
      .ok [⟨none, false, some 72000⟩, ⟨none, false, some 3600⟩] ∧
    resolve_race_forecasts pfZero [] 0 c1Cps c1Fetch [0, 1] =
      .ok [⟨none, false, some 3600⟩, ⟨none, false, some 72000⟩] := by
  constructor <;> decide

-- ---------------------------------------------------------------------------
-- C3
-- ---------------------------------------------------------------------------

/-- C3 as stated is FALSE of the code: a single-checkpoint profile returns
`[0.0]` (last element not 1.0), and a profile whose distances decrease returns
`[2.0, 1.0]` through the distance-ratio fallback — first element not 0.0 and
not monotonically non-decreasing. -/
theorem claim_C3_counterexample :
    (calculate_pass_time_fractions [⟨0, 100⟩]).getLast? ≠ some 1 ∧
    (calculate_pass_time_fractions [⟨10, 0⟩, ⟨5, 0⟩]).head? ≠ some 0 ∧
    ¬ List.Chain' (· ≤ ·) (calculate_pass_time_fractions [⟨10, 0⟩, ⟨5, 0⟩]) := by
  have e1 : calculate_pass_time_fractions [⟨0, 100⟩] = [0] := by
    norm_num [calculate_pass_time_fractions]
  have e2 : calculate_pass_time_fractions [⟨10, 0⟩, ⟨5, 0⟩] = [2, 1] := by
    norm_num [calculate_pass_time_fractions, segmentCosts, segmentCost, cumFractions,
      setLastOne]
  refine ⟨?_, ?_, ?_⟩
  · rw [e1]; simp
  · rw [e2]; simp
  · rw [e2]
    intro hc
    have := (List.chain'_cons.mp hc).1
    norm_num at this

/-- C3, amended: for every checkpoint profile with at least two checkpoints
and positive total segment cost (equivalently: at least one consecutive pair
with strictly increasing distance — true of every real profile running from
distance 0 to a positive finish distance), `calculate_pass_time_fractions`
returns a vector whose length equals the input length, whose first element is
0.0, whose last element is 1.0, and which is monotonically non-decreasing. -/
theorem claim_C3 (l : List PacingCheckpoint) (hn : 2 ≤ l.length)
    (hpos : 0 < (segmentCosts l).sum) :
    (calculate_pass_time_fractions l).length = l.length ∧
    (calculate_pass_time_fractions l).head? = some 0 ∧
    (calculate_pass_time_fractions l).getLast? = some 1 ∧
    List.Chain' (· ≤ ·) (calculate_pass_time_fractions l) := by
  have h0 : ¬ l.length = 0 := by omega
  have h1 : ¬ l.length = 1 := by omega
  have hneg : ¬ (segmentCosts l).sum ≤ 0 := not_le.mpr hpos
  have heq : calculate_pass_time_fractions l =
      setLastOne (0 :: cumFractions (segmentCosts l).sum 0 (segmentCosts l)) := by
    unfold calculate_pass_time_fractions
    dsimp only
    rw [if_neg h0, if_neg h1, if_neg hneg]
  have hcostlen : (segmentCosts l).length = l.length - 1 := by
    unfold segmentCosts
    rw [List.length_zipWith, List.length_tail]
    omega
  have hcumlen : (cumFractions (segmentCosts l).sum 0 (segmentCosts l)).length
      = l.length - 1 := by
    rw [cumFractions_length]; exact hcostlen
  have hcumne : cumFractions (segmentCosts l).sum 0 (segmentCosts l) ≠ [] := by
    intro hc
    rw [hc] at hcumlen
    simp at hcumlen
    omega
  obtain ⟨b, bs, hbs⟩ := List.exists_cons_of_ne_nil hcumne
  have hnonneg := segmentCosts_nonneg l
  have hchain0 : List.Chain' (· ≤ ·)
      (0 :: cumFractions (segmentCosts l).sum 0 (segmentCosts l)) := by
    have := cumFractions_chain _ hpos (segmentCosts l) 0 hnonneg
    rwa [zero_div] at this
  have hle1 : ∀ x ∈ (0 :: cumFractions (segmentCosts l).sum 0 (segmentCosts l)), x ≤ 1 := by
    intro x hx
    rcases List.mem_cons.mp hx with rfl | hx'
    · norm_num
    · have := cumFractions_le _ hpos (segmentCosts l) 0 hnonneg x hx'
      rwa [zero_add, div_self (ne_of_gt hpos)] at this
  refine ⟨?_, ?_, ?_, ?_⟩
  · rw [heq, setLastOne_length]
    simp only [List.length_cons, hcumlen]
    omega
  · rw [heq, hbs]
    exact setLastOne_head? 0 b bs
  · rw [heq]
    exact setLastOne_getLast? _ (List.cons_ne_nil _ _)
  · rw [heq]
    exact setLastOne_chain _ hchain0 hle1

/-- C3 witness: the amended claim at a concrete two-checkpoint profile from
distance 0 to 90. -/
theorem claim_C3_witness :
    (calculate_pass_time_fractions [⟨0, 0⟩, ⟨90, 0⟩]).head? = some 0 ∧
    (calculate_pass_time_fractions [⟨0, 0⟩, ⟨90, 0⟩]).getLast? = some 1 :=
  ⟨(claim_C3 [⟨0, 0⟩, ⟨90, 0⟩] (by norm_num)
      (by norm_num [segmentCosts, segmentCost, K_UP, MIN_COST_FACTOR, max_def])).2.1,
    (claim_C3 [⟨0, 0⟩, ⟨90, 0⟩] (by norm_num)
      (by norm_num [segmentCosts, segmentCost, K_UP, MIN_COST_FACTOR, max_def])).2.2.1⟩

-- ---------------------------------------------------------------------------
-- C9
-- ---------------------------------------------------------------------------

theorem hourlySlots_eq (first last : Int) :
    hourlySlots first last =
      if first ≤ last then first :: hourlySlots (first + 3600) last else [] := by
  rw [hourlySlots]

theorem hourlySlots_mem_aux :
    ∀ (n : Nat) (first last : Int), (last + 3600 - first).toNat ≤ n →
      ∀ t : Int, t ∈ hourlySlots first last ↔
        first ≤ t ∧ t ≤ last ∧ (3600 : Int) ∣ (t - first) := by
  intro n
  induction n with
  | zero =>
    intro first last hfuel t
    rw [hourlySlots_eq, if_neg (by omega)]
    simp only [List.not_mem_nil, false_iff]
    omega
  | succ n ih =>
    intro first last hfuel t
    by_cases h : first ≤ last
    · rw [hourlySlots_eq, if_pos h]
      rw [List.mem_cons, ih (first + 3600) last (by omega) t]
      constructor
      · rintro (rfl | ⟨h1, h2, h3⟩)
        · exact ⟨le_refl t, h, ⟨0, by ring⟩⟩
        · exact ⟨by omega, h2, by omega⟩
      · rintro ⟨h1, h2, h3⟩
        by_cases ht : t = first
        · exact Or.inl ht
        · exact Or.inr ⟨by omega, h2, by omega⟩
    · rw [hourlySlots_eq, if_neg h]
      simp only [List.not_mem_nil, false_iff]
      omega

theorem hourlySlots_mem (first last t : Int) :
    t ∈ hourlySlots first last ↔
      first ≤ t ∧ t ≤ last ∧ (3600 : Int) ∣ (t - first) :=
  hourlySlots_mem_aux (last + 3600 - first).toNat first last (le_refl _) t

theorem floor_to_hour_dvd (x : Int) : (3600 : Int) ∣ floor_to_hour x := by
  unfold floor_to_hour
  omega

/-- C9: `compute_extraction_times` yields, for distance 0, the single slot at
the race start floored to the hour; for positive distance, exactly the hourly
slots (hour-boundary times) from the earliest realistic arrival
(start + distance/30 km/h, floored to the hour) through the latest realistic
arrival (start + distance/10 km/h, ceiled to the hour); and for start 07:00Z
(25200 s into the day) and distance 45 km, exactly the five slots 08:00Z
through 12:00Z. -/
theorem claim_C9 :
    (∀ race_start : Int, compute_extraction_times race_start 0 = [floor_to_hour race_start]) ∧
    (∀ (race_start : Int) (d : ℚ), 0 < d → ∀ t : Int,
      t ∈ compute_extraction_times race_start d ↔
        ((3600 : Int) ∣ t ∧
          floor_to_hour (race_start + ratTrunc (d / POLLER_MAX_SPEED_KMH * 3600)) ≤ t ∧
          t ≤ ceil_to_hour (race_start + ratTrunc (d / POLLER_MIN_SPEED_KMH * 3600)))) ∧
    compute_extraction_times 25200 45 = [28800, 32400, 36000, 39600, 43200] := by
  refine ⟨?_, ?_, ?_⟩
  · intro race_start
    unfold compute_extraction_times
    rw [if_pos (le_refl (0 : ℚ))]
  · intro race_start d hd t
    unfold compute_extraction_times
    rw [if_neg (not_le.mpr hd)]
    dsimp only
    rw [hourlySlots_mem]
    have hf := floor_to_hour_dvd (race_start + ratTrunc (d / POLLER_MAX_SPEED_KMH * 3600))
    generalize floor_to_hour (race_start + ratTrunc (d / POLLER_MAX_SPEED_KMH * 3600)) = f at hf ⊢
    generalize ceil_to_hour (race_start + ratTrunc (d / POLLER_MIN_SPEED_KMH * 3600)) = c
    omega
  · have hearliest : ratTrunc (45 / POLLER_MAX_SPEED_KMH * 3600) = 5400 := by
      have : (45 / POLLER_MAX_SPEED_KMH * 3600 : ℚ) = 5400 := by
        norm_num [POLLER_MAX_SPEED_KMH]
      rw [ratTrunc, this]
      norm_num
    have hlatest : ratTrunc (45 / POLLER_MIN_SPEED_KMH * 3600) = 16200 := by
      have : (45 / POLLER_MIN_SPEED_KMH * 3600 : ℚ) = 16200 := by
        norm_num [POLLER_MIN_SPEED_KMH]
      rw [ratTrunc, this]
      norm_num
    unfold compute_extraction_times
    rw [if_neg (by norm_num)]
    dsimp only
    rw [hearliest, hlatest]
    have hfloor : floor_to_hour (25200 + 5400) = 28800 := by
      unfold floor_to_hour
      decide
    have hceil : ceil_to_hour (25200 + 16200) = 43200 := by
      unfold ceil_to_hour floor_to_hour
      decide
    rw [hfloor, hceil]
    rw [hourlySlots_eq]
    norm_num
    rw [hourlySlots_eq]
    norm_num
    rw [hourlySlots_eq]
    norm_num
    rw [hourlySlots_eq]
    norm_num
    rw [hourlySlots_eq]
    norm_num
    rw [hourlySlots_eq]
    norm_num

/-- C9 witness: the positive-distance characterisation instantiated at the
scenario's first slot. -/
theorem claim_C9_witness : (28800 : Int) ∈ compute_extraction_times 25200 45 :=
  (claim_C9.2.1 25200 45 (by norm_num) 28800).mpr
    (by
      refine ⟨⟨8, by norm_num⟩, ?_, ?_⟩ <;>
        · show _
          norm_num [ratTrunc, POLLER_MAX_SPEED_KMH, POLLER_MIN_SPEED_KMH, floor_to_hour,
            ceil_to_hour])

-- ---------------------------------------------------------------------------
-- C2
-- ---------------------------------------------------------------------------

/-- C2: for every payload with at least one valid-timestamp entry and every
list of requested times, extraction succeeds with one result per time, and the
result at a time `t` is `Some` exactly when the time distance to the nearest
entry (ties broken by first occurrence in payload order — `IsFirstMin`) is at
most that entry's resolution-tier tolerance: 3600 s when the entry carries a
`next_1_hours` block, 10800 s otherwise; distance exactly equal to the
tolerance yields `Some`. -/
theorem claim_C2 (resp : YrResponse) (times : List Int)
    (hne : validTimes resp ≠ []) :
    ∃ res, extract_forecasts_at_times resp times = .ok res ∧
      res.forecasts.length = times.length ∧
      ∀ (i : Nat) (t : Int) (e : Int × YrTimeseries), times.get? i = some t →
        IsFirstMin (fun q => (q.1 - t).natAbs) (parsedEntries resp) e →
        ∃ r, res.forecasts.get? i = some r ∧
          (r.isSome ↔ ((e.1 - t).natAbs : Int) ≤
            (if e.2.data.next_1_hours.isSome then 3600 else 10800)) := by
  have hpe : parsedEntries resp ≠ [] := parsedEntries_ne_nil_iff.mpr hne
  obtain ⟨res, hres, lastE, hlast, hhor, hmap⟩ := extract_ok_of_valid times hpe
  obtain ⟨hlen, hget⟩ := mapExceptList_ok_get hmap
  refine ⟨res, hres, hlen, ?_⟩
  intro i t e hti hfm
  obtain ⟨r, hr, hext⟩ := hget i t hti
  refine ⟨r, hr, ?_⟩
  have hmin : minByFirst (fun q => (q.1 - t).natAbs) (parsedEntries resp) = some e :=
    minByFirst_of_isFirstMin hfm
  have hmem : e ∈ parsedEntries resp := by
    obtain ⟨l₁, l₂, hsplit, _, _⟩ := hfm
    rw [hsplit]
    exact List.mem_append_right _ (List.mem_cons_self _ _)
  obtain ⟨p, hp, hpt, hpr⟩ := parse_entry_of_parsed hmem
  unfold extractAtTime at hext
  rw [hmin] at hext
  dsimp only at hext
  rw [hp] at hext
  dsimp only at hext
  have htol : p.resolution.max_tolerance_secs =
      (if e.2.data.next_1_hours.isSome then (3600 : Int) else 10800) := by
    rw [hpr]
    by_cases hh : e.2.data.next_1_hours.isSome <;>
      simp [hh, ForecastResolution.max_tolerance_secs]
  split at hext
  · rename_i hgt
    simp only [Except.ok.injEq] at hext
    subst hext
    simp only [Option.isSome_none, Bool.false_eq_true, false_iff, not_le]
    rw [hpt, htol] at hgt
    exact hgt
  · rename_i hle
    simp only [Except.ok.injEq] at hext
    subst hext
    simp only [Option.isSome_some, true_iff]
    rw [hpt, htol] at hle
    exact not_lt.mp hle

/-- C2 witness: a single hourly entry at time 0, requested time exactly at the
1-hour tolerance boundary. -/
theorem claim_C2_witness :
    ∃ res, extract_forecasts_at_times w2Resp [3600] = .ok res ∧
      res.forecasts.length = [(3600 : Int)].length ∧
      ∀ (i : Nat) (t : Int) (e : Int × YrTimeseries), [(3600 : Int)].get? i = some t →
        IsFirstMin (fun q => (q.1 - t).natAbs) (parsedEntries w2Resp) e →
        ∃ r, res.forecasts.get? i = some r ∧
          (r.isSome ↔ ((e.1 - t).natAbs : Int) ≤
            (if e.2.data.next_1_hours.isSome then 3600 else 10800)) :=
  claim_C2 w2Resp [3600] (by decide)

-- ---------------------------------------------------------------------------
-- C8
-- ---------------------------------------------------------------------------

/-- C8: extraction fails with a hard error exactly when the timeseries has
zero entries with parseable timestamps (in particular when it is empty);
entries with unparseable timestamps are skipped entirely: every returned
forecast carries the timestamp of a parseable entry, never a defaulted
(epoch) value. -/
theorem claim_C8 (resp : YrResponse) (times : List Int) :
    ((∃ res, extract_forecasts_at_times resp times = .ok res) ↔ validTimes resp ≠ []) ∧
    ∀ res, extract_forecasts_at_times resp times = .ok res →
      ∀ o ∈ res.forecasts, ∀ p, o = some p → p.forecast_time ∈ validTimes resp := by
  constructor
  · constructor
    · rintro ⟨res, hres⟩
      exact parsedEntries_ne_nil_iff.mp (extract_ok_inv hres).1
    · intro hvt
      obtain ⟨res, hres, _⟩ := extract_ok_of_valid times (parsedEntries_ne_nil_iff.mpr hvt)
      exact ⟨res, hres⟩
  · intro res hres o ho p hop
    obtain ⟨hpe, hmap, _⟩ := extract_ok_inv hres
    obtain ⟨i, hi⟩ := List.mem_iff_get?.mp ho
    obtain ⟨hlen, hget⟩ := mapExceptList_ok_get hmap
    have hilt : i < times.length := by
      obtain ⟨hb, _⟩ := List.get?_eq_some.mp hi
      omega
    obtain ⟨t, ht⟩ : ∃ t, times.get? i = some t :=
      ⟨times.get ⟨i, hilt⟩, List.get?_eq_get hilt⟩
    obtain ⟨r, hr, hext⟩ := hget i t ht
    have hro : r = o := by
      rw [hi] at hr
      exact ((Option.some.injEq _ _).mp hr).symm
    subst hro
    exact extractAtTime_some_mem hext p hop

/-- C8 witness: an unparseable entry followed by a valid one at 7200;
extraction succeeds and the sole time membership facts are available. -/
theorem claim_C8_witness :
    ((∃ res, extract_forecasts_at_times w8Resp [7200] = .ok res) ↔ validTimes w8Resp ≠ []) ∧
    ∀ res, extract_forecasts_at_times w8Resp [7200] = .ok res →
      ∀ o ∈ res.forecasts, ∀ p, o = some p → p.forecast_time ∈ validTimes w8Resp :=
  claim_C8 w8Resp [7200]

-- ---------------------------------------------------------------------------
-- C7
-- ---------------------------------------------------------------------------

theorem mem_of_getLast?_eq {l : List α} {a : α} (h : l.getLast? = some a) : a ∈ l := by
  obtain ⟨hne, heq⟩ :=
    List.mem_getLast?_eq_getLast (l := l) (x := a) (Option.mem_def.mpr h)
  rw [heq]
  exact List.getLast_mem hne

theorem sorted_le_getLast : ∀ {l : List Int} {a : Int},
    List.Sorted (· ≤ ·) l → l.getLast? = some a → ∀ x ∈ l, x ≤ a := by
  intro l
  induction l with
  | nil => intro a _ _ x hx; cases hx
  | cons h t ih =>
    intro a hs hl x hx
    cases t with
    | nil =>
      simp only [List.getLast?_singleton, Option.some.injEq] at hl
      have hxh : x = h := List.mem_singleton.mp hx
      rw [hxh, ← hl]
    | cons b t' =>
      rw [List.getLast?_cons_cons] at hl
      rcases List.mem_cons.mp hx with rfl | hx'
      · exact (List.sorted_cons.mp hs).1 a (mem_of_getLast?_eq hl)
      · exact ih (List.sorted_cons.mp hs).2 hl x hx'

/-- C7 as stated is FALSE of the code: the horizon is the POSITIONALLY last
parseable entry, not the chronological maximum — a payload whose parseable
timestamps appear as [200, 100] yields horizon 100 while the maximum is 200. -/
theorem claim_C7_counterexample :
    extract_forecasts_at_times c7Resp [] = .ok ⟨[], 100⟩ ∧
    validTimes c7Resp = [200, 100] := by
  constructor <;> decide

/-- C7, amended: the horizon is the timestamp of the positionally last
parseable entry; when the payload's parseable timestamps are in non-decreasing
payload order (the upstream contract of an ordered timeseries), this is the
chronologically last (maximum) timestamp. -/
theorem claim_C7 (resp : YrResponse) (times : List Int)
    (hne : validTimes resp ≠ [])
    (hsorted : List.Sorted (· ≤ ·) (validTimes resp)) :
    ∃ res, extract_forecasts_at_times resp times = .ok res ∧
      res.forecast_horizon ∈ validTimes resp ∧
      ∀ t ∈ validTimes resp, t ≤ res.forecast_horizon := by
  have hpe := parsedEntries_ne_nil_iff.mpr hne
  obtain ⟨res, hres, lastE, hlast, hhor, _⟩ := extract_ok_of_valid times hpe
  have hvlast : (validTimes resp).getLast? = some lastE.1 := by
    unfold validTimes
    rw [List.getLast?_map, hlast]
    rfl
  refine ⟨res, hres, ?_, ?_⟩
  · rw [hhor]
    exact mem_of_getLast?_eq hvlast
  · intro t ht
    rw [hhor]
    exact sorted_le_getLast hsorted hvlast t ht

/-- C7 witness: a chronologically ordered payload [100, 200]. -/
theorem claim_C7_witness :
    ∃ res, extract_forecasts_at_times w7Resp [] = .ok res ∧
      res.forecast_horizon ∈ validTimes w7Resp ∧
      ∀ t ∈ validTimes w7Resp, t ≤ res.forecast_horizon :=
  claim_C7 w7Resp [] (by decide) (by decide)

-- ---------------------------------------------------------------------------
-- C5
-- ---------------------------------------------------------------------------

/-- C5: when the cache lookup finds no fresh row and the upstream fetch
returns "not modified" (304): if a prior cache row exists, `ensure_fresh`
returns that row's payload unchanged and the stored row keeps its payload and
`fetched_at`, only its `expires_at` (from the response's expiry header, or the
now + 1 hour fallback — `resolveExpires`) and optionally its revalidation
token change; if no prior row exists, `ensure_fresh` fails with an error. -/
theorem claim_C5 (cache : Option YrCachedResponse) (now : Int)
    (fetch : Option String → Except String YrTimeseriesResult)
    (expires : Option (Option Int)) (last_modified : Option String)
    (hexpired : get_yr_cached_response cache now = none)
    (h304 : fetch (cache.bind (·.last_modified)) = .ok (.NotModified expires last_modified)) :
    (∀ c, cache = some c →
      ensure_yr_cache_fresh cache now fetch =
        .ok (c.raw_response,
          some { c with
                  expires_at := resolveExpires expires now
                  last_modified := last_modified.or c.last_modified })) ∧
    (cache = none → ∃ e, ensure_yr_cache_fresh cache now fetch = .error e) := by
  constructor
  · intro c hc
    subst hc
    unfold ensure_yr_cache_fresh
    rw [hexpired]
    dsimp only
    rw [h304]
  · intro hc
    subst hc
    unfold ensure_yr_cache_fresh
    rw [hexpired]
    dsimp only
    rw [h304]
    exact ⟨_, rfl⟩

/-- C5 witness: an expired row, a 304 with a parseable expiry header (100) and
no token; the old payload is returned and only the metadata changes. -/
theorem claim_C5_witness :
    ensure_yr_cache_fresh (some w5Row) 20 w5Fetch =
      .ok (w5Row.raw_response,
        some { w5Row with
                expires_at := resolveExpires (some (some 100)) 20
                last_modified := Option.or none w5Row.last_modified }) :=
  (claim_C5 (some w5Row) 20 w5Fetch (some (some 100)) none (by decide) (by decide)).1
    w5Row rfl

-- ---------------------------------------------------------------------------
-- C6
-- ---------------------------------------------------------------------------

/-- C6: when the upstream cache refresh fails, `resolve_forecast` falls back
to storage: if a stored forecast for the checkpoint within the ±3 h window of
the requested time exists, it returns one with the stale flag set to `true`
(and no horizon); if no such record exists, it fails with the
upstream-unavailable error. -/
theorem claim_C6 (powf : ℚ → ℚ → ℚ) (db : List Forecast)
    (cache : Option YrCachedResponse) (now : Int)
    (fetch : Option String → Except String YrTimeseriesResult)
    (cp : Nat) (t : Int)
    (hfail : ∃ e, ensure_yr_cache_fresh cache now fetch = .error e) :
    ((∃ f ∈ db, inForecastWindow cp t f) →
      ∃ f ∈ db, inForecastWindow cp t f ∧
        resolve_forecast powf db cache now fetch cp t = .ok (some f, true, none)) ∧
    ((¬ ∃ f ∈ db, inForecastWindow cp t f) →
      resolve_forecast powf db cache now fetch cp t =
        .error "yr.no unavailable and no cached data") := by
  obtain ⟨e, he⟩ := hfail
  constructor
  · rintro ⟨f0, hf0, hw0⟩
    have hfilter : db.filter (inForecastWindow cp t) ≠ [] := by
      intro hc
      exact List.filter_eq_nil_iff.mp hc f0 hf0 hw0
    obtain ⟨g, hg⟩ := minByFirstWith_isSome (sqlForecastLt t) hfilter
    have hgmem : g ∈ db.filter (inForecastWindow cp t) := minByFirstWith_mem hg
    refine ⟨g, (List.mem_filter.mp hgmem).1, (List.mem_filter.mp hgmem).2, ?_⟩
    unfold resolve_forecast
    rw [he]
    dsimp only
    unfold get_latest_forecast
    rw [hg]
  · intro hnone
    have hfilter : db.filter (inForecastWindow cp t) = [] := by
      rw [List.filter_eq_nil_iff]
      intro a ha hwa
      exact hnone ⟨a, ha, hwa⟩
    unfold resolve_forecast
    rw [he]
    dsimp only
    unfold get_latest_forecast
    rw [hfilter]
    rfl

/-- C6 witness: upstream down, one stored row for checkpoint 7 at time 900
within the window of the requested time 1000. -/
theorem claim_C6_witness :
    ((∃ f ∈ [w6Row], inForecastWindow 7 1000 f) →
      ∃ f ∈ [w6Row], inForecastWindow 7 1000 f ∧
        resolve_forecast pfZero [w6Row] none 0 wFetchFail 7 1000 = .ok (some f, true, none)) ∧
    ((¬ ∃ f ∈ [w6Row], inForecastWindow 7 1000 f) →
      resolve_forecast pfZero [w6Row] none 0 wFetchFail 7 1000 =
        .error "yr.no unavailable and no cached data") :=
  claim_C6 pfZero [w6Row] none 0 wFetchFail 7 1000 ⟨"connection refused", by decide⟩

end WeatherBingo
